import Mathlib

/-!
The stand-alone synchronization control loop `srsue::nr::sync_sa`.

Shallow embedding of `srsue/src/phy/sync_sa.cc`.

* The member variables the code touches are the fields of `sync_sa`.
* Every call on a collaborator (searcher, slot synchronizer, radio, stack,
  logger, condition variable, semaphore, thread base class) is recorded, in
  program order, in the field `trace`; the boolean a collaborator returns is
  an argument of the function that calls it.
* A block of code executed while `state_mutex` is held is one function on
  `sync_sa` (an atomic section).  The member functions are the compositions
  of their atomic sections; the interleaving semantics `step` / `run`
  schedules the same atomic sections of the control-loop thread and of any
  number of caller threads.
* `written` is a ghost field: the values assigned to `next_state`, oldest
  first.  `iterations` and `rets` in `config` are ghost fields as well.
-/

namespace srsue.nr

/-! ## Data model -/

/-- Synchronization state, the enumeration `sync_sa::state_t`. -/
inductive state_t where
  | STATE_IDLE
  | STATE_CELL_SEARCH
  | STATE_CELL_SELECT
  deriving DecidableEq, Repr

open state_t

/-- The lines written through `logger.error`, in source order. -/
inductive log_msg where
  /-- Text "Error initialising cell searcher". -/
  | init_searcher
  /-- Text "Error initialising slot synchronizer". -/
  | init_slot_synchronizer
  /-- Text "Sync: trying to start cell search but state is not IDLE". -/
  | search_not_idle
  /-- Text "Sync: failed to start cell search". -/
  | search_start_failed
  /-- Text "Failed to run searcher. Transitioning to IDLE...". -/
  | searcher_run_failed
  deriving DecidableEq, Repr

/-- Calls made on the collaborators of `sync_sa`. -/
inductive event where
  /-- Call of `searcher.init(args.get_cell_search(), stack, radio)`. -/
  | searcher_init
  /-- Call of `slot_synchronizer.init(args.get_slot_sync(), stack, radio)`. -/
  | slot_synchronizer_init
  /-- Call of `start(args.thread_priority)` of the thread base class. -/
  | thread_start (prio : Int)
  /-- Call of `searcher.start(cfg)`. -/
  | searcher_start
  /-- Call of `searcher.run()`. -/
  | searcher_run
  /-- Call of `state_cvar.notify_all()`. -/
  | notify_all
  /-- Call of `state_cvar.wait(lock)`. -/
  | cvar_wait
  /-- Call of `tti_semaphore.wait_all()`. -/
  | wait_all
  /-- Call of `radio->rx_now(rf_buffer, ts)` with the buffer sized to `nof_samples`. -/
  | rx_now (nof_samples : Nat)
  /-- Call of `stack->run_tti(idx)`. -/
  | run_tti (idx : Nat)
  /-- Call of `wait_thread_finish()` of the thread base class. -/
  | wait_thread_finish
  /-- Call of `logger.error`. -/
  | error (m : log_msg)
  deriving DecidableEq, Repr

/-- The part of `args_t` that `init` reads.  `sf_sz_arg` is the integer the
floating point expression `args.srate_hz / 1000.0f` truncates to; `init`
stores it in the 32-bit member `sf_sz`. -/
structure args_t where
  sf_sz_arg : Nat
  thread_priority : Int
  deriving DecidableEq, Repr

/-- Member variables of `sync_sa` (`stack` and `radio` are pointers, kept as
handles), the trace of collaborator calls and the ghost list `written`. -/
structure sync_sa where
  state : state_t
  next_state : state_t
  running : Bool
  sf_sz : Nat
  slot_idx : Nat
  stack : Nat
  radio : Nat
  trace : List event
  written : List state_t
  deriving DecidableEq, Repr

namespace sync_sa

/-- Record one call on a collaborator. -/
def call (s : sync_sa) (e : event) : sync_sa :=
  { s with trace := s.trace ++ [e] }

/-- The assignment `next_state = v`. -/
def set_next_state (s : sync_sa) (v : state_t) : sync_sa :=
  { s with next_state := v, written := s.written ++ [v] }

/-! ## Member functions -/

/-- `sync_sa::init` (lines 23-47).  `searcher_ok` and `slot_sync_ok` are the
results of `searcher.init` and `slot_synchronizer.init`. -/
def init (s : sync_sa) (args : args_t) (stack_ radio_ : Nat)
    (searcher_ok slot_sync_ok : Bool) : Bool × sync_sa :=
  let s1 := { s with stack := stack_, radio := radio_, sf_sz := args.sf_sz_arg % 2 ^ 32 }
  let s2 := s1.call event.searcher_init
  if !searcher_ok then
    (false, s2.call (event.error log_msg.init_searcher))
  else
    let s3 := s2.call event.slot_synchronizer_init
    if !slot_sync_ok then
      (false, s3.call (event.error log_msg.init_slot_synchronizer))
    else
      let s4 := { s3 with running := true }
      (true, s4.call (event.thread_start args.thread_priority))

/-- First atomic section of `start_cell_search` (lines 52-59): the test made
under the lock.  `none` means the test passed and the lock was released;
`some false` is the early return. -/
def start_cell_search_check (s : sync_sa) : Option Bool × sync_sa :=
  if s.state ≠ STATE_IDLE ∨ s.next_state ≠ STATE_IDLE then
    (some false, s.call (event.error log_msg.search_not_idle))
  else
    (none, s)

/-- Lines 60-63 of `start_cell_search`, executed without the lock. -/
def start_cell_search_start (start_ok : Bool) (s : sync_sa) : Option Bool × sync_sa :=
  let s1 := s.call event.searcher_start
  if !start_ok then
    (some false, s1.call (event.error log_msg.search_start_failed))
  else
    (none, s1)

/-- Last atomic section of `start_cell_search` (lines 64-69). -/
def start_cell_search_commit (s : sync_sa) : Bool × sync_sa :=
  (true, s.set_next_state STATE_CELL_SEARCH)

/-- `sync_sa::start_cell_search` (lines 49-70) run without interference;
`start_ok` is the result of `searcher.start(cfg)`. -/
def start_cell_search (start_ok : Bool) (s : sync_sa) : Bool × sync_sa :=
  match start_cell_search_check s with
  | (some r, s1) => (r, s1)
  | (none, s1) =>
    match start_cell_search_start start_ok s1 with
    | (some r, s2) => (r, s2)
    | (none, s2) => start_cell_search_commit s2

/-- `sync_sa::start_cell_select` (lines 72-75). -/
def start_cell_select (s : sync_sa) : Bool × sync_sa :=
  (true, s)

/-- One evaluation of the loop condition of `go_idle` (lines 82-90) with the
lock held: either the body runs up to the point where `state_cvar.wait`
releases the lock (`none`), or the loop is left, `tti_semaphore.wait_all()`
is called and `true` is returned. -/
def go_idle_pass (s : sync_sa) : Option Bool × sync_sa :=
  if s.state ≠ STATE_IDLE then
    (none, (s.set_next_state STATE_IDLE).call event.cvar_wait)
  else
    (some true, s.call event.wait_all)

/-- First statement of `sync_sa::stop` (line 95). -/
def stop_flag (s : sync_sa) : sync_sa :=
  { s with running := false }

/-- Second statement of `sync_sa::stop` (line 96), once the thread has
finished. -/
def stop_join (s : sync_sa) : sync_sa :=
  s.call event.wait_thread_finish

/-- `sync_sa::get_state` (lines 99-103). -/
def get_state (s : sync_sa) : state_t :=
  s.state

/-- `sync_sa::run_state_idle` (lines 105-116). -/
def run_state_idle (s : sync_sa) : sync_sa :=
  (s.call (event.rx_now s.sf_sz)).call (event.run_tti s.slot_idx)

/-- `sync_sa::run_state_cell_search` (lines 118-129); `run_ok` is the result
of `searcher.run()`. -/
def run_state_cell_search (run_ok : Bool) (s : sync_sa) : sync_sa :=
  let s1 := s.call event.searcher_run
  if !run_ok then
    (s1.call (event.error log_msg.searcher_run_failed)).set_next_state STATE_IDLE
  else
    s1

/-- The locked section of one iteration of `run_thread` (lines 134-141):
the new object and the local variable `current_state`. -/
def commit (s : sync_sa) : sync_sa × state_t :=
  if s.next_state ≠ s.state then
    let s1 := { s with state := s.next_state }
    (s1.call event.notify_all, s1.state)
  else
    (s, s.state)

/-- The `switch` of `run_thread` (lines 143-152). -/
def dispatch (current_state : state_t) (run_ok : Bool) (s : sync_sa) : sync_sa :=
  match current_state with
  | STATE_IDLE => s.run_state_idle
  | STATE_CELL_SEARCH => s.run_state_cell_search run_ok
  | STATE_CELL_SELECT => s

/-- The body of the `while` loop of `run_thread` (lines 134-152). -/
def iteration (run_ok : Bool) (s : sync_sa) : sync_sa :=
  dispatch s.commit.2 run_ok s.commit.1

/-- `sync_sa::run_thread` (lines 131-154) with no other thread running:
`run_oks` holds the results of the successive calls of `searcher.run()`, one
entry per iteration allowed; the result is `none` when the entries run out
before `running` is found false. -/
def run_thread : List Bool → sync_sa → Option sync_sa
  | [], s => if s.running then none else some s
  | ok :: rest, s => if s.running then run_thread rest (s.iteration ok) else some s

end sync_sa

/-! ## Interleaving semantics

The control-loop thread and the caller threads take turns.  A turn is the
test of `running`, or one block of code executed with `state_mutex` held, or
one block executed without the lock that touches no member variable but the
trace (`searcher.start`); the calls a handler makes on its collaborators
touch no member variable either and are taken in the same turn as the
handler's locked section.  `go_idle` holds the lock from the evaluation of
its loop condition to its return, `wait_all` included.  Caller threads are
numbered. -/

/-- Where the control-loop thread stands in `run_thread`. -/
inductive loop_pc where
  /-- Line 133: about to test `running`. -/
  | head
  /-- Line 134: `running` was found true, the lock is not taken yet. -/
  | body
  /-- Line 143: the lock is released, `current_state` is set, the handler has
  not run yet. -/
  | dispatch (current_state : state_t)
  /-- The function `run_thread` has returned. -/
  | finished
  deriving DecidableEq, Repr

/-- Where a caller thread stands. -/
inductive caller_pc where
  /-- Not inside a member function. -/
  | outside
  /-- In `start_cell_search` at line 60: test passed, lock released. -/
  | search_unlocked
  /-- In `start_cell_search` at line 64: `searcher.start` succeeded. -/
  | search_relock
  /-- In `go_idle` at line 84, blocked in `state_cvar.wait`; `notified` tells
  whether `notify_all` was called since the wait began. -/
  | idle_wait (notified : Bool)
  /-- In `stop` at line 96, blocked in `wait_thread_finish`. -/
  | joining
  deriving DecidableEq, Repr

/-- Value returned by a member function. -/
inductive ret where
  | bool (b : Bool)
  | state (v : state_t)
  | unit
  deriving DecidableEq, Repr

/-- A turn of one thread. -/
inductive action where
  /-- Control loop, line 133: test `running`. -/
  | thread_test
  /-- Control loop, lines 134-141: the locked section. -/
  | thread_commit
  /-- Control loop, lines 143-152: the handler; `run_ok` is the result of
  `searcher.run()` should the handler call it. -/
  | thread_dispatch (run_ok : Bool)
  /-- Caller `t` enters `start_cell_search` (lines 52-59). -/
  | search_check (t : Nat)
  /-- Caller `t` runs `searcher.start(cfg)`, which returns `start_ok`. -/
  | search_start (t : Nat) (start_ok : Bool)
  /-- Caller `t` takes the lock again and finishes `start_cell_search`. -/
  | search_commit (t : Nat)
  /-- Caller `t` runs `start_cell_select`. -/
  | cell_select (t : Nat)
  /-- Caller `t` enters `go_idle` and evaluates the loop condition. -/
  | idle_enter (t : Nat)
  /-- Caller `t`, notified, leaves `state_cvar.wait` and evaluates the loop
  condition again. -/
  | idle_wake (t : Nat)
  /-- Caller `t` leaves `state_cvar.wait` without a notification (spurious
  wake-up) and evaluates the loop condition again. -/
  | idle_spurious (t : Nat)
  /-- Caller `t` runs `get_state`. -/
  | read_state (t : Nat)
  /-- Caller `t` enters `stop` and clears `running` (line 95). -/
  | stop_enter (t : Nat)
  /-- Caller `t` leaves `wait_thread_finish` (line 96): the thread is done. -/
  | stop_return (t : Nat)
  deriving DecidableEq, Repr

/-- The object, the position of every thread, and the ghost fields
`iterations` (how often the loop body was entered) and `rets` (which caller
returned which value, oldest first). -/
structure config where
  obj : sync_sa
  loop : loop_pc
  callers : Nat → caller_pc
  iterations : Nat
  rets : List (Nat × ret)

namespace config

/-- Effect of `state_cvar.notify_all()` on the waiting callers. -/
def notify (callers : Nat → caller_pc) : Nat → caller_pc :=
  fun t =>
    match callers t with
    | caller_pc.idle_wait _ => caller_pc.idle_wait true
    | p => p

/-- Caller `t` moves to `p`. -/
def move (c : config) (t : Nat) (p : caller_pc) : config :=
  { c with callers := Function.update c.callers t p }

/-- Caller `t` returns `r` and is outside again. -/
def leave (c : config) (t : Nat) (r : ret) : config :=
  { c with callers := Function.update c.callers t caller_pc.outside,
           rets := c.rets ++ [(t, r)] }

/-- Caller `t` has run an atomic section with outcome `r`: it returns the
boolean, if there is one, or else goes on to `p`. -/
def resume (c : config) (t : Nat) (r : Option Bool × sync_sa) (p : caller_pc) : config :=
  match r.1 with
  | some b => { c with obj := r.2 }.leave t (ret.bool b)
  | none => { c with obj := r.2 }.move t p

/-- The control-loop thread at line 133: it leaves the loop when `running`
is false, or else enters the loop body. -/
def loop_test (c : config) : config :=
  if c.obj.running then
    { c with loop := loop_pc.body, iterations := c.iterations + 1 }
  else
    { c with loop := loop_pc.finished }

/-- The control-loop thread at lines 134-141: the locked section, with the
waiting callers notified when `notify_all` is called. -/
def loop_commit (c : config) : config :=
  { c with
    obj := c.obj.commit.1,
    loop := loop_pc.dispatch c.obj.commit.2,
    callers := if c.obj.next_state ≠ c.obj.state then notify c.callers else c.callers }

end config

/-- One turn; `none` when the action is not enabled in `c`. -/
def step : action → config → Option config
  | action.thread_test, c =>
    match c.loop with
    | loop_pc.head => some c.loop_test
    | _ => none
  | action.thread_commit, c =>
    match c.loop with
    | loop_pc.body => some c.loop_commit
    | _ => none
  | action.thread_dispatch run_ok, c =>
    match c.loop with
    | loop_pc.dispatch cs =>
      some { c with obj := sync_sa.dispatch cs run_ok c.obj, loop := loop_pc.head }
    | _ => none
  | action.search_check t, c =>
    match c.callers t with
    | caller_pc.outside =>
      some (c.resume t c.obj.start_cell_search_check caller_pc.search_unlocked)
    | _ => none
  | action.search_start t start_ok, c =>
    match c.callers t with
    | caller_pc.search_unlocked =>
      some (c.resume t (c.obj.start_cell_search_start start_ok) caller_pc.search_relock)
    | _ => none
  | action.search_commit t, c =>
    match c.callers t with
    | caller_pc.search_relock =>
      some ({ c with obj := c.obj.start_cell_search_commit.2 }.leave t
        (ret.bool c.obj.start_cell_search_commit.1))
    | _ => none
  | action.cell_select t, c =>
    match c.callers t with
    | caller_pc.outside =>
      some ({ c with obj := c.obj.start_cell_select.2 }.leave t
        (ret.bool c.obj.start_cell_select.1))
    | _ => none
  | action.idle_enter t, c =>
    match c.callers t with
    | caller_pc.outside => some (c.resume t c.obj.go_idle_pass (caller_pc.idle_wait false))
    | _ => none
  | action.idle_wake t, c =>
    match c.callers t with
    | caller_pc.idle_wait true =>
      some (c.resume t c.obj.go_idle_pass (caller_pc.idle_wait false))
    | _ => none
  | action.idle_spurious t, c =>
    match c.callers t with
    | caller_pc.idle_wait _ => some (c.resume t c.obj.go_idle_pass (caller_pc.idle_wait false))
    | _ => none
  | action.read_state t, c =>
    match c.callers t with
    | caller_pc.outside => some (c.leave t (ret.state c.obj.get_state))
    | _ => none
  | action.stop_enter t, c =>
    match c.callers t with
    | caller_pc.outside => some ({ c with obj := c.obj.stop_flag }.move t caller_pc.joining)
    | _ => none
  | action.stop_return t, c =>
    match c.callers t, c.loop with
    | caller_pc.joining, loop_pc.finished =>
      some ({ c with obj := c.obj.stop_join }.leave t ret.unit)
    | _, _ => none

/-- Run a schedule, oldest action first; `none` when some action of it is
not enabled when its turn comes. -/
def run : List action → config → Option config
  | [], c => some c
  | a :: rest, c =>
    match step a c with
    | some c1 => run rest c1
    | none => none

/-- The action is a turn of the control-loop thread. -/
def action.is_loop : action → Bool
  | action.thread_test => true
  | action.thread_commit => true
  | action.thread_dispatch _ => true
  | _ => false

/-- The action is a turn of caller `t` inside `go_idle`. -/
def action.is_go_idle (t : Nat) : action → Bool
  | action.idle_enter u => u == t
  | action.idle_wake u => u == t
  | action.idle_spurious u => u == t
  | _ => false

/-- Steps the control-loop thread still takes once `running` is false. -/
def loop_pc.remaining : loop_pc → Nat
  | loop_pc.body => 3
  | loop_pc.dispatch _ => 2
  | loop_pc.head => 1
  | loop_pc.finished => 0

/-- The turns the control-loop thread takes up to and including its next
test of `running`; `run_ok` is the result of `searcher.run()` should the
handler in progress call it. -/
def loop_pc.to_test : loop_pc → Bool → List action
  | loop_pc.body, run_ok =>
    [action.thread_commit, action.thread_dispatch run_ok, action.thread_test]
  | loop_pc.dispatch _, run_ok => [action.thread_dispatch run_ok, action.thread_test]
  | loop_pc.head, _ => [action.thread_test]
  | loop_pc.finished, _ => []

/-- The turns the control-loop thread takes up to and including its next
locked section, while `running` is true. -/
def loop_pc.to_commit : loop_pc → Bool → List action
  | loop_pc.body, _ => [action.thread_commit]
  | loop_pc.dispatch _, run_ok =>
    [action.thread_dispatch run_ok, action.thread_test, action.thread_commit]
  | loop_pc.head, _ => [action.thread_test, action.thread_commit]
  | loop_pc.finished, _ => []

/-- An object with `state = next_state = STATE_IDLE`, no call made and
nothing written yet: the settled idle baseline before `init`. -/
def sync_sa.fresh : sync_sa :=
  { state := STATE_IDLE, next_state := STATE_IDLE, running := false, sf_sz := 0,
    slot_idx := 0, stack := 0, radio := 0, trace := [], written := [] }

/-- Configuration with the control loop at its head and every caller
outside. -/
def config.start (o : sync_sa) : config :=
  { obj := o, loop := loop_pc.head, callers := fun _ => caller_pc.outside,
    iterations := 0, rets := [] }

/-- A configuration in the middle of an iteration dispatched with
`STATE_CELL_SEARCH`, every caller outside. -/
def config.searching : config :=
  { obj := { sync_sa.fresh with
      running := true, state := STATE_CELL_SEARCH, next_state := STATE_CELL_SEARCH },
    loop := loop_pc.dispatch STATE_CELL_SEARCH, callers := fun _ => caller_pc.outside,
    iterations := 1, rets := [] }

/-- Only `STATE_IDLE` and `STATE_CELL_SEARCH` were written to `next_state`,
and `next_state`, `state` and every value `get_state` returned are
`STATE_IDLE` or among the written values. -/
def written_inv (c : config) : Prop :=
  (∀ x ∈ c.obj.written, x = STATE_IDLE ∨ x = STATE_CELL_SEARCH) ∧
  (c.obj.next_state = STATE_IDLE ∨ c.obj.next_state ∈ c.obj.written) ∧
  (c.obj.state = STATE_IDLE ∨ c.obj.state ∈ c.obj.written) ∧
  (∀ t v, (t, ret.state v) ∈ c.rets → v = STATE_IDLE ∨ v ∈ c.obj.written)

/-- A schedule on which `go_idle`, entered by caller `t` in `c`, returns:
the caller enters; unless `state` is already `STATE_IDLE`, the control loop
runs up to and including its next locked section and the caller, notified,
wakes up. -/
def config.go_idle_schedule (c : config) (t : Nat) (run_ok : Bool) : List action :=
  if c.obj.state = STATE_IDLE then
    [action.idle_enter t]
  else
    action.idle_enter t :: c.loop.to_commit run_ok ++ [action.idle_wake t]

/-- A configuration with a search requested and not yet committed. -/
def config.pending_search : config :=
  config.start { sync_sa.fresh with running := true, next_state := STATE_CELL_SEARCH }

/-! ## Single calls -/

section single_calls

open sync_sa

/-- C1: `start_cell_search` returns false exactly when its test finds
`state` or `next_state` different from `STATE_IDLE`, or else when
`searcher.start(cfg)` returns false.  A failing call writes neither `state`
nor `next_state` (nor anything but the trace), and when the test fails the
only call made is the error log: `searcher.start` is not invoked. -/
theorem C1_start_cell_search_failure (start_ok : Bool) (s : sync_sa) :
    ((s.start_cell_search start_ok).1 = false ↔
      ((s.state ≠ STATE_IDLE ∨ s.next_state ≠ STATE_IDLE) ∨ start_ok = false)) ∧
    ((s.start_cell_search start_ok).1 = false →
      (s.start_cell_search start_ok).2.state = s.state ∧
      (s.start_cell_search start_ok).2.next_state = s.next_state ∧
      (s.start_cell_search start_ok).2.written = s.written) ∧
    ((s.state ≠ STATE_IDLE ∨ s.next_state ≠ STATE_IDLE) →
      (s.start_cell_search start_ok).2.trace =
        s.trace ++ [event.error log_msg.search_not_idle] ∧
      (s.start_cell_search start_ok).2.trace.count event.searcher_start =
        s.trace.count event.searcher_start) ∧
    ((s.state = STATE_IDLE ∧ s.next_state = STATE_IDLE) → start_ok = false →
      (s.start_cell_search start_ok).2.trace =
        s.trace ++ [event.searcher_start, event.error log_msg.search_start_failed]) := by
  by_cases h : s.state ≠ STATE_IDLE ∨ s.next_state ≠ STATE_IDLE
  · simp [start_cell_search, start_cell_search_check, h, call]
    intro h1 h2
    simp [h1, h2] at h
  · cases start_ok <;>
      simp [start_cell_search, start_cell_search_check, start_cell_search_start,
        start_cell_search_commit, h, call, set_next_state]

/-- C1, at a concrete input: a search is pending, the call fails and leaves
the pending request in place. -/
theorem C1_start_cell_search_failure_witness :
    (({ sync_sa.fresh with next_state := STATE_CELL_SEARCH }).start_cell_search true).1 = false ∧
    (({ sync_sa.fresh with next_state := STATE_CELL_SEARCH }).start_cell_search true).2.next_state
      = STATE_CELL_SEARCH :=
  ⟨(C1_start_cell_search_failure true
      { sync_sa.fresh with next_state := STATE_CELL_SEARCH }).1.2 (Or.inl (Or.inr (by decide))),
   by decide⟩

/-- C4: when iteration k is dispatched with committed state
`STATE_CELL_SEARCH` and `searcher.run()` returns false, the handler sets
`next_state` to `STATE_IDLE` and leaves `state` as committed; iteration k+1,
run on that object, commits `state = STATE_IDLE` in its locked section, so
`get_state` returns `STATE_IDLE`, and runs the idle handler. -/
theorem C4_searcher_failure_goes_idle (s : sync_sa) (run_ok : Bool)
    (hk : s.commit.2 = STATE_CELL_SEARCH) :
    s.iteration false = s.commit.1.run_state_cell_search false ∧
    (s.commit.1.run_state_cell_search false).next_state = STATE_IDLE ∧
    (s.commit.1.run_state_cell_search false).state = s.commit.1.state ∧
    (s.iteration false).state = STATE_CELL_SEARCH ∧
    (s.iteration false).commit.2 = STATE_IDLE ∧
    (s.iteration false).commit.1.state = STATE_IDLE ∧
    (s.iteration false).commit.1.get_state = STATE_IDLE ∧
    (s.iteration false).iteration run_ok = (s.iteration false).commit.1.run_state_idle := by
  have h1 : s.commit.1.state = STATE_CELL_SEARCH := by
    unfold commit at hk ⊢
    split <;> simp_all [call]
  have h2 : s.iteration false = s.commit.1.run_state_cell_search false := by
    simp [iteration, hk, dispatch]
  have h3 : (s.commit.1.run_state_cell_search false).next_state = STATE_IDLE := by
    simp [run_state_cell_search, call, set_next_state]
  have h4 : (s.commit.1.run_state_cell_search false).state = s.commit.1.state := by
    simp [run_state_cell_search, call, set_next_state]
  have h5 : (s.iteration false).state = STATE_CELL_SEARCH := by rw [h2, h4, h1]
  have h6 : (s.iteration false).next_state = STATE_IDLE := by rw [h2, h3]
  have h7 : (s.iteration false).commit.2 = STATE_IDLE := by
    simp [commit, h5, h6]
  have h8 : (s.iteration false).commit.1.state = STATE_IDLE := by
    simp [commit, h5, h6, call]
  refine ⟨h2, h3, h4, h5, h7, h8, h8, ?_⟩
  show dispatch (s.iteration false).commit.2 run_ok (s.iteration false).commit.1 = _
  rw [h7]
  rfl

/-- C4, at a concrete input: the search was committed in an earlier
iteration. -/
theorem C4_searcher_failure_goes_idle_witness :
    (({ sync_sa.fresh with state := STATE_CELL_SEARCH, next_state := STATE_CELL_SEARCH
        }).iteration false).commit.1.get_state = STATE_IDLE :=
  (C4_searcher_failure_goes_idle
    { sync_sa.fresh with state := STATE_CELL_SEARCH, next_state := STATE_CELL_SEARCH }
    true (by decide)).2.2.2.2.2.2.1

/-- C5: the locked section of an iteration sets `state` to the value of
`next_state`, calls `notify_all` exactly when the two differed, leaves
`next_state` and every other member alone, and the iteration then runs the
handler of the committed state: `run_state_idle` for `STATE_IDLE`,
`run_state_cell_search` for `STATE_CELL_SEARCH`, nothing for
`STATE_CELL_SELECT`. -/
theorem C5_commit_and_dispatch (s : sync_sa) (run_ok : Bool) :
    s.commit.1.state = s.next_state ∧
    s.commit.2 = s.next_state ∧
    s.commit.1.next_state = s.next_state ∧
    s.commit.1.written = s.written ∧
    s.commit.1.running = s.running ∧
    (s.next_state ≠ s.state → s.commit.1.trace = s.trace ++ [event.notify_all]) ∧
    (s.next_state = s.state → s.commit.1.trace = s.trace) ∧
    (s.next_state = STATE_IDLE → s.iteration run_ok = s.commit.1.run_state_idle) ∧
    (s.next_state = STATE_CELL_SEARCH →
      s.iteration run_ok = s.commit.1.run_state_cell_search run_ok) ∧
    (s.next_state = STATE_CELL_SELECT → s.iteration run_ok = s.commit.1) := by
  have h2 : s.commit.2 = s.next_state := by
    unfold commit; split <;> simp_all
  refine ⟨?_, h2, ?_, ?_, ?_, ?_, ?_, ?_, ?_, ?_⟩
  · unfold commit; split <;> simp_all [call]
  · unfold commit; split <;> simp_all [call]
  · unfold commit; split <;> simp_all [call]
  · unfold commit; split <;> simp_all [call]
  · intro h; simp [commit, h, call]
  · intro h; simp [commit, h]
  · intro h; simp [iteration, h2, h, dispatch]
  · intro h; simp [iteration, h2, h, dispatch]
  · intro h; simp [iteration, h2, h, dispatch]

/-- C5, at a concrete input: a pending search is committed with a
notification and the search handler runs. -/
theorem C5_commit_and_dispatch_witness :
    ({ sync_sa.fresh with next_state := STATE_CELL_SEARCH }).commit.1.trace =
      [] ++ [event.notify_all] ∧
    (({ sync_sa.fresh with next_state := STATE_CELL_SEARCH }).iteration true).trace =
      [event.notify_all, event.searcher_run] ∧
    (({ sync_sa.fresh with next_state := STATE_CELL_SELECT }).iteration true).trace =
      [event.notify_all] ∧
    (sync_sa.fresh.iteration true).trace = [event.rx_now 0, event.run_tti 0] :=
  ⟨(C5_commit_and_dispatch { sync_sa.fresh with next_state := STATE_CELL_SEARCH }
      true).2.2.2.2.2.1 (by decide),
   by decide, by decide, by decide⟩

/-- C7, as stated, fails: with `state = STATE_CELL_SEARCH`,
`start_cell_select` returns true. -/
theorem C7_start_cell_select_counterexample :
    ({ sync_sa.fresh with state := STATE_CELL_SEARCH, next_state := STATE_CELL_SEARCH }).state
      ≠ STATE_IDLE ∧
    (({ sync_sa.fresh with state := STATE_CELL_SEARCH, next_state := STATE_CELL_SEARCH }
      ).start_cell_select).1 = true := by
  decide

/-- C7, amended: `start_cell_search`, the one transition request that is
implemented, fails unless both `state` and `next_state` are `STATE_IDLE`,
and then changes neither; `start_cell_select` is a placeholder that returns
true in every state and changes nothing. -/
theorem C7_transition_requests (s : sync_sa) (start_ok : Bool) :
    ((s.state ≠ STATE_IDLE ∨ s.next_state ≠ STATE_IDLE) →
      (s.start_cell_search start_ok).1 = false ∧
      (s.start_cell_search start_ok).2.state = s.state ∧
      (s.start_cell_search start_ok).2.next_state = s.next_state) ∧
    s.start_cell_select = (true, s) := by
  refine ⟨?_, rfl⟩
  intro h
  simp [start_cell_search, start_cell_search_check, h, call]

/-- C7 amended, at a concrete input. -/
theorem C7_transition_requests_witness :
    (({ sync_sa.fresh with state := STATE_CELL_SEARCH }).start_cell_search true).1 = false ∧
    (({ sync_sa.fresh with state := STATE_CELL_SEARCH }).start_cell_select).1 = true :=
  ⟨((C7_transition_requests { sync_sa.fresh with state := STATE_CELL_SEARCH } true).1
      (Or.inl (by decide))).1,
   by decide⟩

/-- C9: `init` returns false if and only if `searcher.init` or
`slot_synchronizer.init` returns false; then `running` keeps its value and
the thread base class is not asked to start the thread.  When both succeed,
`init` sets `running`, starts the thread with the configured priority and
returns true. -/
theorem C9_init (s : sync_sa) (args : args_t) (stack_ radio_ : Nat)
    (searcher_ok slot_sync_ok : Bool) :
    ((s.init args stack_ radio_ searcher_ok slot_sync_ok).1 = false ↔
      (searcher_ok = false ∨ slot_sync_ok = false)) ∧
    ((s.init args stack_ radio_ searcher_ok slot_sync_ok).1 = false →
      (s.init args stack_ radio_ searcher_ok slot_sync_ok).2.running = s.running ∧
      ∀ prio, (s.init args stack_ radio_ searcher_ok slot_sync_ok).2.trace.count
          (event.thread_start prio) = s.trace.count (event.thread_start prio)) ∧
    ((searcher_ok = true ∧ slot_sync_ok = true) →
      (s.init args stack_ radio_ searcher_ok slot_sync_ok).1 = true ∧
      (s.init args stack_ radio_ searcher_ok slot_sync_ok).2.running = true ∧
      (s.init args stack_ radio_ searcher_ok slot_sync_ok).2.trace =
        s.trace ++ [event.searcher_init, event.slot_synchronizer_init,
          event.thread_start args.thread_priority]) := by
  cases searcher_ok <;> cases slot_sync_ok <;> simp [init, call]

/-- C9, at concrete inputs: the slot synchronizer fails. -/
theorem C9_init_witness :
    (sync_sa.fresh.init ⟨23040, 0⟩ 1 2 true false).1 = false ∧
    (sync_sa.fresh.init ⟨23040, 0⟩ 1 2 true false).2.running = false ∧
    (sync_sa.fresh.init ⟨23040, 0⟩ 1 2 true true).2.running = true :=
  ⟨(C9_init sync_sa.fresh ⟨23040, 0⟩ 1 2 true false).1.2 (Or.inr rfl), by decide, by decide⟩

end single_calls

/-! ## Interleavings -/

section interleavings

open sync_sa config

theorem run_nil (c : config) : run [] c = some c := rfl

theorem run_cons (a : action) (rest : List action) (c : config) :
    run (a :: rest) c = (step a c).bind (run rest) := by
  simp only [run]
  cases step a c <;> rfl

theorem run_append (l1 l2 : List action) (c : config) :
    run (l1 ++ l2) c = (run l1 c).bind (run l2) := by
  induction l1 generalizing c with
  | nil => rfl
  | cons a rest ih =>
    simp only [List.cons_append, run_cons]
    cases step a c with
    | none => rfl
    | some c1 => simpa using ih c1

/-! ### What the atomic sections do to each member -/

@[simp] theorem call_state (s : sync_sa) (e : event) : (s.call e).state = s.state := rfl
@[simp] theorem call_next_state (s : sync_sa) (e : event) :
    (s.call e).next_state = s.next_state := rfl
@[simp] theorem call_running (s : sync_sa) (e : event) : (s.call e).running = s.running := rfl
@[simp] theorem call_written (s : sync_sa) (e : event) : (s.call e).written = s.written := rfl
@[simp] theorem call_trace (s : sync_sa) (e : event) : (s.call e).trace = s.trace ++ [e] := rfl

@[simp] theorem set_next_state_state (s : sync_sa) (v : state_t) :
    (s.set_next_state v).state = s.state := rfl
@[simp] theorem set_next_state_next_state (s : sync_sa) (v : state_t) :
    (s.set_next_state v).next_state = v := rfl
@[simp] theorem set_next_state_running (s : sync_sa) (v : state_t) :
    (s.set_next_state v).running = s.running := rfl
@[simp] theorem set_next_state_written (s : sync_sa) (v : state_t) :
    (s.set_next_state v).written = s.written ++ [v] := rfl
@[simp] theorem set_next_state_trace (s : sync_sa) (v : state_t) :
    (s.set_next_state v).trace = s.trace := rfl

@[simp] theorem commit_snd (s : sync_sa) : s.commit.2 = s.next_state := by
  unfold commit; split <;> simp_all
@[simp] theorem commit_state (s : sync_sa) : s.commit.1.state = s.next_state := by
  unfold commit; split <;> simp_all
@[simp] theorem commit_next_state (s : sync_sa) : s.commit.1.next_state = s.next_state := by
  unfold commit; split <;> simp_all
@[simp] theorem commit_running (s : sync_sa) : s.commit.1.running = s.running := by
  unfold commit; split <;> simp_all
@[simp] theorem commit_written (s : sync_sa) : s.commit.1.written = s.written := by
  unfold commit; split <;> simp_all
theorem commit_trace (s : sync_sa) :
    s.commit.1.trace = if s.next_state ≠ s.state then s.trace ++ [event.notify_all]
      else s.trace := by
  unfold commit; split <;> simp_all

@[simp] theorem dispatch_state (cs : state_t) (ok : Bool) (s : sync_sa) :
    (dispatch cs ok s).state = s.state := by
  cases cs <;> cases ok <;> rfl
@[simp] theorem dispatch_running (cs : state_t) (ok : Bool) (s : sync_sa) :
    (dispatch cs ok s).running = s.running := by
  cases cs <;> cases ok <;> rfl
theorem dispatch_next_state (cs : state_t) (ok : Bool) (s : sync_sa) :
    (dispatch cs ok s).next_state =
      if cs = STATE_CELL_SEARCH ∧ ok = false then STATE_IDLE else s.next_state := by
  cases cs <;> cases ok <;> rfl
theorem dispatch_written (cs : state_t) (ok : Bool) (s : sync_sa) :
    (dispatch cs ok s).written =
      if cs = STATE_CELL_SEARCH ∧ ok = false then s.written ++ [STATE_IDLE]
      else s.written := by
  cases cs <;> cases ok <;> rfl

theorem go_idle_pass_fst (s : sync_sa) :
    s.go_idle_pass.1 = if s.state ≠ STATE_IDLE then none else some true := by
  unfold go_idle_pass; split <;> rfl
@[simp] theorem go_idle_pass_state (s : sync_sa) : s.go_idle_pass.2.state = s.state := by
  unfold go_idle_pass; split <;> rfl
@[simp] theorem go_idle_pass_running (s : sync_sa) :
    s.go_idle_pass.2.running = s.running := by
  unfold go_idle_pass; split <;> rfl
theorem go_idle_pass_next_state (s : sync_sa) :
    s.go_idle_pass.2.next_state =
      if s.state ≠ STATE_IDLE then STATE_IDLE else s.next_state := by
  unfold go_idle_pass; split <;> rfl
theorem go_idle_pass_written (s : sync_sa) :
    s.go_idle_pass.2.written =
      if s.state ≠ STATE_IDLE then s.written ++ [STATE_IDLE] else s.written := by
  unfold go_idle_pass; split <;> rfl
theorem go_idle_pass_trace (s : sync_sa) :
    s.go_idle_pass.2.trace =
      if s.state ≠ STATE_IDLE then s.trace ++ [event.cvar_wait]
      else s.trace ++ [event.wait_all] := by
  unfold go_idle_pass; split <;> rfl

theorem check_fst (s : sync_sa) :
    s.start_cell_search_check.1 =
      if s.state ≠ STATE_IDLE ∨ s.next_state ≠ STATE_IDLE then some false else none := by
  unfold start_cell_search_check; split <;> rfl
@[simp] theorem check_state (s : sync_sa) : s.start_cell_search_check.2.state = s.state := by
  unfold start_cell_search_check; split <;> rfl
@[simp] theorem check_next_state (s : sync_sa) :
    s.start_cell_search_check.2.next_state = s.next_state := by
  unfold start_cell_search_check; split <;> rfl
@[simp] theorem check_running (s : sync_sa) :
    s.start_cell_search_check.2.running = s.running := by
  unfold start_cell_search_check; split <;> rfl
@[simp] theorem check_written (s : sync_sa) :
    s.start_cell_search_check.2.written = s.written := by
  unfold start_cell_search_check; split <;> rfl

theorem start_fst (ok : Bool) (s : sync_sa) :
    (s.start_cell_search_start ok).1 = if ok = false then some false else none := by
  cases ok <;> rfl
@[simp] theorem start_state (ok : Bool) (s : sync_sa) :
    (s.start_cell_search_start ok).2.state = s.state := by
  cases ok <;> rfl
@[simp] theorem start_next_state (ok : Bool) (s : sync_sa) :
    (s.start_cell_search_start ok).2.next_state = s.next_state := by
  cases ok <;> rfl
@[simp] theorem start_running (ok : Bool) (s : sync_sa) :
    (s.start_cell_search_start ok).2.running = s.running := by
  cases ok <;> rfl
@[simp] theorem start_written (ok : Bool) (s : sync_sa) :
    (s.start_cell_search_start ok).2.written = s.written := by
  cases ok <;> rfl

/-! ### What a turn does to each part of the configuration -/

@[simp] theorem move_obj (c : config) (t : Nat) (p : caller_pc) : (c.move t p).obj = c.obj := rfl
@[simp] theorem move_loop (c : config) (t : Nat) (p : caller_pc) :
    (c.move t p).loop = c.loop := rfl
@[simp] theorem move_iterations (c : config) (t : Nat) (p : caller_pc) :
    (c.move t p).iterations = c.iterations := rfl
@[simp] theorem move_rets (c : config) (t : Nat) (p : caller_pc) :
    (c.move t p).rets = c.rets := rfl
@[simp] theorem move_callers (c : config) (t : Nat) (p : caller_pc) :
    (c.move t p).callers = Function.update c.callers t p := rfl

@[simp] theorem leave_obj (c : config) (t : Nat) (r : ret) : (c.leave t r).obj = c.obj := rfl
@[simp] theorem leave_loop (c : config) (t : Nat) (r : ret) : (c.leave t r).loop = c.loop := rfl
@[simp] theorem leave_iterations (c : config) (t : Nat) (r : ret) :
    (c.leave t r).iterations = c.iterations := rfl
@[simp] theorem leave_rets (c : config) (t : Nat) (r : ret) :
    (c.leave t r).rets = c.rets ++ [(t, r)] := rfl
@[simp] theorem leave_callers (c : config) (t : Nat) (r : ret) :
    (c.leave t r).callers = Function.update c.callers t caller_pc.outside := rfl

@[simp] theorem resume_obj (c : config) (t : Nat) (r : Option Bool × sync_sa)
    (p : caller_pc) : (c.resume t r p).obj = r.2 := by
  unfold resume; split <;> rfl
@[simp] theorem resume_loop (c : config) (t : Nat) (r : Option Bool × sync_sa)
    (p : caller_pc) : (c.resume t r p).loop = c.loop := by
  unfold resume; split <;> rfl
@[simp] theorem resume_iterations (c : config) (t : Nat) (r : Option Bool × sync_sa)
    (p : caller_pc) : (c.resume t r p).iterations = c.iterations := by
  unfold resume; split <;> rfl
theorem resume_rets (c : config) (t : Nat) (r : Option Bool × sync_sa) (p : caller_pc) :
    (c.resume t r p).rets =
      match r.1 with
      | some b => c.rets ++ [(t, ret.bool b)]
      | none => c.rets := by
  unfold resume; split <;> simp_all
theorem resume_callers (c : config) (t : Nat) (r : Option Bool × sync_sa) (p : caller_pc) :
    (c.resume t r p).callers =
      match r.1 with
      | some _ => Function.update c.callers t caller_pc.outside
      | none => Function.update c.callers t p := by
  unfold resume; split <;> simp_all

@[simp] theorem loop_test_obj (c : config) : c.loop_test.obj = c.obj := by
  unfold loop_test; split <;> rfl
@[simp] theorem loop_test_rets (c : config) : c.loop_test.rets = c.rets := by
  unfold loop_test; split <;> rfl
@[simp] theorem loop_test_callers (c : config) : c.loop_test.callers = c.callers := by
  unfold loop_test; split <;> rfl
theorem loop_test_loop (c : config) :
    c.loop_test.loop = if c.obj.running then loop_pc.body else loop_pc.finished := by
  unfold loop_test; split <;> rfl
theorem loop_test_iterations (c : config) :
    c.loop_test.iterations = if c.obj.running then c.iterations + 1 else c.iterations := by
  unfold loop_test; split <;> rfl

@[simp] theorem loop_commit_obj (c : config) : c.loop_commit.obj = c.obj.commit.1 := rfl
@[simp] theorem loop_commit_rets (c : config) : c.loop_commit.rets = c.rets := rfl
@[simp] theorem loop_commit_iterations (c : config) :
    c.loop_commit.iterations = c.iterations := rfl
@[simp] theorem loop_commit_loop (c : config) :
    c.loop_commit.loop = loop_pc.dispatch c.obj.next_state := by
  simp [loop_commit]
theorem loop_commit_callers (c : config) :
    c.loop_commit.callers =
      if c.obj.next_state ≠ c.obj.state then notify c.callers else c.callers := rfl

/-! ### The state register only holds requested values -/

/-- What one turn can do to the state register: it appends to `written`
only `STATE_IDLE` or `STATE_CELL_SEARCH`, `next_state` changes only to an
appended value, `state` changes only to the old `next_state`, and a value
returned by `get_state` is the current `state`. -/
theorem step_register (a : action) (c c1 : config) (h : step a c = some c1) :
    ∃ ws : List state_t,
      c1.obj.written = c.obj.written ++ ws ∧
      (∀ x ∈ ws, x = STATE_IDLE ∨ x = STATE_CELL_SEARCH) ∧
      (c1.obj.next_state = c.obj.next_state ∨ c1.obj.next_state ∈ ws) ∧
      (c1.obj.state = c.obj.state ∨ c1.obj.state = c.obj.next_state) ∧
      (c1.rets = c.rets ∨
        ∃ t r, c1.rets = c.rets ++ [(t, r)] ∧ ∀ v, r = ret.state v → v = c.obj.state) := by
  have pass : ∀ (t : Nat) (p : caller_pc),
      ∃ ws : List state_t,
        (c.resume t c.obj.go_idle_pass p).obj.written = c.obj.written ++ ws ∧
        (∀ x ∈ ws, x = STATE_IDLE ∨ x = STATE_CELL_SEARCH) ∧
        ((c.resume t c.obj.go_idle_pass p).obj.next_state = c.obj.next_state ∨
          (c.resume t c.obj.go_idle_pass p).obj.next_state ∈ ws) ∧
        ((c.resume t c.obj.go_idle_pass p).obj.state = c.obj.state ∨
          (c.resume t c.obj.go_idle_pass p).obj.state = c.obj.next_state) ∧
        ((c.resume t c.obj.go_idle_pass p).rets = c.rets ∨
          ∃ u r, (c.resume t c.obj.go_idle_pass p).rets = c.rets ++ [(u, r)] ∧
            ∀ v, r = ret.state v → v = c.obj.state) := by
    intro t p
    by_cases hs : c.obj.state = STATE_IDLE
    · refine ⟨[], ?_, by simp, Or.inl ?_, Or.inl (by simp), Or.inr ⟨t, ret.bool true, ?_, ?_⟩⟩
      · simp [go_idle_pass_written, hs]
      · simp [go_idle_pass_next_state, hs]
      · simp [resume_rets, go_idle_pass_fst, hs]
      · intro v hv; cases hv
    · refine ⟨[STATE_IDLE], ?_, by simp, Or.inr ?_, Or.inl (by simp), Or.inl ?_⟩
      · simp [go_idle_pass_written, hs]
      · simp [go_idle_pass_next_state, hs]
      · simp [resume_rets, go_idle_pass_fst, hs]
  cases a <;> simp only [step] at h <;> split at h <;> cases h
  · -- thread_test
    exact ⟨[], by simp, by simp, Or.inl (by simp), Or.inl (by simp), Or.inl (by simp)⟩
  · -- thread_commit
    exact ⟨[], by simp, by simp, Or.inl (by simp), Or.inr (by simp), Or.inl (by simp)⟩
  · -- thread_dispatch
    rename_i run_ok _ cs _
    by_cases hf : cs = STATE_CELL_SEARCH ∧ run_ok = false
    · exact ⟨[STATE_IDLE], by simp [dispatch_written, hf], by simp,
        Or.inr (by simp [dispatch_next_state, hf]), Or.inl (by simp), Or.inl rfl⟩
    · exact ⟨[], by simp [dispatch_written, hf], by simp,
        Or.inl (by simp [dispatch_next_state, hf]), Or.inl (by simp), Or.inl rfl⟩
  · -- search_check
    rename_i t _ _
    refine ⟨[], by simp, by simp, Or.inl (by simp), Or.inl (by simp), ?_⟩
    by_cases hc : c.obj.state ≠ STATE_IDLE ∨ c.obj.next_state ≠ STATE_IDLE
    · refine Or.inr ⟨t, ret.bool false, by simp [resume_rets, check_fst, hc], ?_⟩
      intro v hv; cases hv
    · exact Or.inl (by simp [resume_rets, check_fst, hc])
  · -- search_start
    rename_i t start_ok _ _
    refine ⟨[], by simp, by simp, Or.inl (by simp), Or.inl (by simp), ?_⟩
    cases start_ok
    · refine Or.inr ⟨t, ret.bool false, by simp [resume_rets, start_fst], ?_⟩
      intro v hv; cases hv
    · exact Or.inl (by simp [resume_rets, start_fst])
  · -- search_commit
    rename_i t _ _
    refine ⟨[STATE_CELL_SEARCH], by simp [start_cell_search_commit], by simp,
      Or.inr (by simp [start_cell_search_commit]), Or.inl (by simp [start_cell_search_commit]),
      Or.inr ⟨t, ret.bool true, by simp [start_cell_search_commit], ?_⟩⟩
    intro v hv; cases hv
  · -- cell_select
    rename_i t _ _
    refine ⟨[], by simp [start_cell_select], by simp, Or.inl (by simp [start_cell_select]),
      Or.inl (by simp [start_cell_select]),
      Or.inr ⟨t, ret.bool true, by simp [start_cell_select], ?_⟩⟩
    intro v hv; cases hv
  · exact pass _ _
  · exact pass _ _
  · exact pass _ _
  · -- read_state
    rename_i t _ _
    refine ⟨[], by simp, by simp, Or.inl (by simp), Or.inl (by simp),
      Or.inr ⟨t, ret.state c.obj.get_state, by simp, ?_⟩⟩
    intro v hv
    cases hv
    rfl
  · -- stop_enter
    exact ⟨[], by simp [stop_flag], by simp, Or.inl (by simp [stop_flag]),
      Or.inl (by simp [stop_flag]), Or.inl (by simp)⟩
  · -- stop_return
    rename_i t _ _ _ _
    refine ⟨[], by simp [stop_join], by simp, Or.inl (by simp [stop_join]),
      Or.inl (by simp [stop_join]), Or.inr ⟨t, ret.unit, by simp, ?_⟩⟩
    intro v hv; cases hv

theorem step_written_inv (a : action) (c c1 : config) (h : step a c = some c1)
    (hi : written_inv c) : written_inv c1 := by
  obtain ⟨h1, h2, h3, h4⟩ := hi
  obtain ⟨ws, e1, e2, e3, e4, e5⟩ := step_register a c c1 h
  have hnext : c1.obj.next_state = STATE_IDLE ∨ c1.obj.next_state ∈ c1.obj.written := by
    rw [e1]
    rcases e3 with e3 | e3
    · rw [e3]
      exact h2.imp id (fun m => List.mem_append_left _ m)
    · exact Or.inr (List.mem_append_right _ e3)
  refine ⟨?_, hnext, ?_, ?_⟩
  · intro x hx
    rw [e1] at hx
    rcases List.mem_append.1 hx with hx | hx
    · exact h1 x hx
    · exact e2 x hx
  · rw [e1]
    rcases e4 with e4 | e4
    · rw [e4]
      exact h3.imp id (fun m => List.mem_append_left _ m)
    · rw [e4]
      exact h2.imp id (fun m => List.mem_append_left _ m)
  · intro t v hv
    rw [e1]
    rcases e5 with e5 | ⟨u, r, e5, e6⟩
    · rw [e5] at hv
      exact (h4 t v hv).imp id (fun m => List.mem_append_left _ m)
    · rw [e5] at hv
      rcases List.mem_append.1 hv with hv | hv
      · exact (h4 t v hv).imp id (fun m => List.mem_append_left _ m)
      · have hr : r = ret.state v := by
          simp only [List.mem_singleton, Prod.mk.injEq] at hv
          exact hv.2.symm
        rw [e6 v hr]
        exact h3.imp id (fun m => List.mem_append_left _ m)

theorem run_written_inv (sched : List action) (c c1 : config) (h : run sched c = some c1)
    (hi : written_inv c) : written_inv c1 := by
  induction sched generalizing c with
  | nil =>
    cases h
    exact hi
  | cons a rest ih =>
    rw [run_cons] at h
    cases hs : step a c with
    | none => rw [hs] at h; cases h
    | some c2 =>
      rw [hs] at h
      exact ih c2 h (step_written_inv a c c2 hs hi)

/-- C10: starting from `state = next_state = STATE_IDLE` with nothing
written and nothing returned yet, after every schedule of turns of the
control loop and of any callers (`start_cell_search`, `start_cell_select`,
`go_idle`, `get_state`, `stop`), the value `get_state` returns is
`STATE_IDLE` or a value written to `next_state` before; only `STATE_IDLE`
and `STATE_CELL_SEARCH` are ever written, so `state` is never
`STATE_CELL_SELECT`; the same holds of every value `get_state` has returned
to a caller during the schedule. -/
theorem C10_state_was_requested (c0 : config) (sched : List action) (c : config)
    (hs : c0.obj.state = STATE_IDLE) (hn : c0.obj.next_state = STATE_IDLE)
    (hw : c0.obj.written = []) (hr : c0.rets = [])
    (h : run sched c0 = some c) :
    (c.obj.get_state = STATE_IDLE ∨ c.obj.get_state ∈ c.obj.written) ∧
    (∀ x ∈ c.obj.written, x = STATE_IDLE ∨ x = STATE_CELL_SEARCH) ∧
    c.obj.get_state ≠ STATE_CELL_SELECT ∧
    (∀ t v, (t, ret.state v) ∈ c.rets →
      (v = STATE_IDLE ∨ v ∈ c.obj.written) ∧ v ≠ STATE_CELL_SELECT) := by
  have h0 : written_inv c0 := by
    refine ⟨?_, Or.inl hn, Or.inl hs, ?_⟩
    · intro x hx
      rw [hw] at hx
      cases hx
    · intro t v hv
      rw [hr] at hv
      cases hv
  obtain ⟨h1, _, h3, h4⟩ := run_written_inv sched c0 c h h0
  have key : ∀ v : state_t, (v = STATE_IDLE ∨ v ∈ c.obj.written) → v ≠ STATE_CELL_SELECT := by
    intro v hv he
    subst he
    rcases hv with hv | hv
    · cases hv
    · rcases h1 _ hv with h5 | h5 <;> cases h5
  exact ⟨h3, h1, key _ h3, fun t v hv => ⟨h4 t v hv, key v (h4 t v hv)⟩⟩

/-- C10, on a concrete schedule: caller 0 requests a search, the loop
commits it, caller 1 reads `STATE_CELL_SEARCH`. -/
theorem C10_state_was_requested_witness :
    ∃ c, run [action.search_check 0, action.search_start 0 true, action.search_commit 0,
          action.thread_test, action.thread_commit, action.read_state 1]
        (config.start { sync_sa.fresh with running := true }) = some c ∧
      c.obj.get_state = STATE_CELL_SEARCH ∧
      c.rets = [(0, ret.bool true), (1, ret.state STATE_CELL_SEARCH)] ∧
      c.obj.get_state ∈ c.obj.written ∧
      c.obj.get_state ≠ STATE_CELL_SELECT :=
  ⟨_, rfl, rfl, rfl,
    (C10_state_was_requested (config.start { sync_sa.fresh with running := true })
      [action.search_check 0, action.search_start 0 true, action.search_commit 0,
        action.thread_test, action.thread_commit, action.read_state 1] _ rfl rfl rfl rfl rfl).1.resolve_left
      (by decide),
    (C10_state_was_requested (config.start { sync_sa.fresh with running := true })
      [action.search_check 0, action.search_start 0 true, action.search_commit 0,
        action.thread_test, action.thread_commit, action.read_state 1] _ rfl rfl rfl rfl rfl).2.2.1⟩

/-! ### Shutdown -/

/-- With `running` false, a turn leaves `running` false and enters no new
iteration; a turn of the control loop brings it one step closer to its
return, a turn of a caller leaves the control loop where it is. -/
theorem step_stopped (a : action) (c c1 : config) (h : step a c = some c1)
    (hr : c.obj.running = false) :
    c1.obj.running = false ∧ c1.iterations = c.iterations ∧
    c1.loop.remaining + (if a.is_loop then 1 else 0) = c.loop.remaining := by
  cases a <;> simp only [step] at h <;> split at h <;> cases h
  · rename_i _ hl
    simp [hr, loop_test_loop, loop_test_iterations, hl, loop_pc.remaining, action.is_loop]
  · rename_i _ hl
    simp [hr, hl, loop_pc.remaining, action.is_loop]
  · rename_i _ _ _ hl
    simp [hr, hl, loop_pc.remaining, action.is_loop]
  all_goals
    simp [hr, action.is_loop, start_cell_search_commit, start_cell_select, stop_flag, stop_join]

theorem run_stopped (sched : List action) (c c1 : config) (h : run sched c = some c1)
    (hr : c.obj.running = false) :
    c1.obj.running = false ∧ c1.iterations = c.iterations ∧
    c1.loop.remaining + (sched.filter action.is_loop).length = c.loop.remaining := by
  induction sched generalizing c with
  | nil =>
    cases h
    simp [hr]
  | cons a rest ih =>
    rw [run_cons] at h
    cases hs : step a c with
    | none => rw [hs] at h; cases h
    | some c2 =>
      rw [hs] at h
      obtain ⟨e1, e2, e3⟩ := step_stopped a c c2 hs hr
      obtain ⟨f1, f2, f3⟩ := ih c2 h e1
      refine ⟨f1, f2.trans e2, ?_⟩
      rw [← e3, ← f3]
      cases hl : a.is_loop
      · simp [List.filter_cons, hl]
      · simp [List.filter_cons, hl]
        omega

/-- C8: once `running` is false it stays false under every schedule, no
new iteration of the loop is entered, and each turn of the control-loop
thread uses up one of the at most three steps that separate it from its
return (of the iteration in progress the locked section and the handler,
then the test of `running`).  The control
loop is never blocked before its return.  Hence `stop`, called in any
configuration (any `state`, the loop at its head or inside an iteration),
returns after the loop has finished what was in progress: it clears
`running`, the loop runs up to its next test and leaves, and
`wait_thread_finish` comes back.  Run on its own, `run_thread` entered with
`running` false returns at once, the object untouched. -/
theorem C8_stop_terminates (c : config) :
    (∀ sched c1, c.obj.running = false → run sched c = some c1 →
      c1.obj.running = false ∧ c1.iterations = c.iterations ∧
      c1.loop.remaining + (sched.filter action.is_loop).length = c.loop.remaining ∧
      (sched.filter action.is_loop).length ≤ 3) ∧
    (c.loop ≠ loop_pc.finished → ∀ run_ok,
      (step action.thread_test c).isSome = true ∨
      (step action.thread_commit c).isSome = true ∨
      (step (action.thread_dispatch run_ok) c).isSome = true) ∧
    (∀ t run_ok, c.callers t = caller_pc.outside →
      ∃ c1, run (action.stop_enter t :: c.loop.to_test run_ok ++ [action.stop_return t]) c
          = some c1 ∧
        c1.loop = loop_pc.finished ∧
        c1.rets = c.rets ++ [(t, ret.unit)] ∧
        c1.iterations = c.iterations ∧
        c1.obj.running = false) ∧
    (c.obj.running = false → ∀ run_oks, c.obj.run_thread run_oks = some c.obj) := by
  refine ⟨?_, ?_, ?_, ?_⟩
  rotate_left 3
  · intro hr run_oks
    cases run_oks <;> simp [run_thread, hr]
  · intro sched c1 hr h
    obtain ⟨e1, e2, e3⟩ := run_stopped sched c c1 h hr
    refine ⟨e1, e2, e3, ?_⟩
    have : c.loop.remaining ≤ 3 := by
      cases c.loop <;> simp [loop_pc.remaining]
    omega
  · intro hl run_ok
    cases hc : c.loop with
    | head => left; simp [step, hc]
    | body => right; left; simp [step, hc]
    | dispatch cs => right; right; simp [step, hc]
    | finished => exact absurd hc hl
  · intro t run_ok ht
    cases hc : c.loop with
    | head =>
      simp [loop_pc.to_test, run, step, ht, hc, stop_flag, stop_join, loop_test]
    | body =>
      by_cases hd : c.obj.next_state = c.obj.state <;>
        simp [loop_pc.to_test, run, step, ht, hc, stop_flag, stop_join, loop_test,
          loop_commit_callers, notify, hd]
    | dispatch cs =>
      simp [loop_pc.to_test, run, step, ht, hc, stop_flag, stop_join, loop_test]
    | finished =>
      simp [loop_pc.to_test, run, step, ht, hc, stop_flag, stop_join, loop_test]

/-- C8, on a concrete configuration: `stop` is called while the loop is
inside an iteration in `STATE_CELL_SEARCH`. -/
theorem C8_stop_terminates_witness :
    ∃ c1, run [action.stop_enter 0, action.thread_dispatch true, action.thread_test,
          action.stop_return 0] config.searching = some c1 ∧
      c1.loop = loop_pc.finished ∧ c1.rets = [] ++ [(0, ret.unit)] ∧ c1.iterations = 1 ∧
      c1.obj.running = false :=
  (C8_stop_terminates config.searching).2.2.1 0 true rfl

/-! ### `start_cell_search` with the control loop running in the gap -/

/-- A turn of the control loop taken with `state = next_state = STATE_IDLE`
changes neither, moves no caller and returns nothing. -/
theorem step_loop_settled (a : action) (c c1 : config) (ha : a.is_loop = true)
    (h : step a c = some c1) (hs : c.obj.state = STATE_IDLE)
    (hn : c.obj.next_state = STATE_IDLE) :
    c1.obj.state = STATE_IDLE ∧ c1.obj.next_state = STATE_IDLE ∧ c1.callers = c.callers ∧
    c1.rets = c.rets := by
  cases a <;> simp [action.is_loop] at ha <;> simp only [step] at h <;> split at h <;> cases h
  · simp [hs, hn]
  · simp [hs, hn, loop_commit_callers]
  · rename_i run_ok _ cs _
    by_cases hf : cs = STATE_CELL_SEARCH ∧ run_ok = false <;>
      simp [dispatch_next_state, hf, hs, hn]

theorem run_loop_settled (sched : List action) (c c1 : config)
    (hsched : ∀ a ∈ sched, a.is_loop = true)
    (h : run sched c = some c1) (hs : c.obj.state = STATE_IDLE)
    (hn : c.obj.next_state = STATE_IDLE) :
    c1.obj.state = STATE_IDLE ∧ c1.obj.next_state = STATE_IDLE ∧ c1.callers = c.callers ∧
    c1.rets = c.rets := by
  induction sched generalizing c with
  | nil =>
    cases h
    exact ⟨hs, hn, rfl, rfl⟩
  | cons a rest ih =>
    rw [run_cons] at h
    cases hst : step a c with
    | none => rw [hst] at h; cases h
    | some c2 =>
      rw [hst] at h
      obtain ⟨e1, e2, e3, e4⟩ :=
        step_loop_settled a c c2 (hsched a (List.mem_cons_self _ _)) hst hs hn
      obtain ⟨f1, f2, f3, f4⟩ :=
        ih c2 (fun b hb => hsched b (List.mem_cons_of_mem _ hb)) h e1 e2
      exact ⟨f1, f2, f3.trans e3, f4.trans e4⟩

/-- C2: from `state = next_state = STATE_IDLE`, when `searcher.start(cfg)`
returns true, `start_cell_search` returns true with
`next_state = STATE_CELL_SEARCH` and `state` still `STATE_IDLE`; the next
control-loop iteration commits the request in its locked section and
notifies, and after that iteration (whatever `searcher.run()` returns in
it) `get_state` returns `STATE_CELL_SEARCH`.  The same holds when the control
loop takes turns while `start_cell_search` has released the lock: the call
of caller `t` returns true, leaving `next_state = STATE_CELL_SEARCH` and
`state = STATE_IDLE`, and the next locked section of the loop commits. -/
theorem C2_start_cell_search_success (c : config) (t : Nat) (run_ok : Bool)
    (hs : c.obj.state = STATE_IDLE) (hn : c.obj.next_state = STATE_IDLE) :
    ((c.obj.start_cell_search true).1 = true ∧
      (c.obj.start_cell_search true).2.next_state = STATE_CELL_SEARCH ∧
      (c.obj.start_cell_search true).2.state = STATE_IDLE ∧
      (c.obj.start_cell_search true).2.trace = c.obj.trace ++ [event.searcher_start] ∧
      (c.obj.start_cell_search true).2.commit.2 = STATE_CELL_SEARCH ∧
      (c.obj.start_cell_search true).2.commit.1.get_state = STATE_CELL_SEARCH ∧
      (c.obj.start_cell_search true).2.commit.1.trace =
        c.obj.trace ++ [event.searcher_start, event.notify_all] ∧
      ((c.obj.start_cell_search true).2.iteration run_ok).get_state = STATE_CELL_SEARCH) ∧
    (∀ gap1 gap2 c1, c.callers t = caller_pc.outside →
      (∀ a ∈ gap1, a.is_loop = true) → (∀ a ∈ gap2, a.is_loop = true) →
      run (action.search_check t ::
        (gap1 ++ action.search_start t true :: (gap2 ++ [action.search_commit t]))) c
        = some c1 →
      c1.rets = c.rets ++ [(t, ret.bool true)] ∧
      c1.obj.next_state = STATE_CELL_SEARCH ∧
      c1.obj.state = STATE_IDLE ∧
      c1.loop_commit.obj.get_state = STATE_CELL_SEARCH) := by
  refine ⟨?_, ?_⟩
  · cases run_ok <;>
      simp [start_cell_search, start_cell_search_check, start_cell_search_start,
        start_cell_search_commit, hs, hn, call, set_next_state, commit, get_state,
        iteration, dispatch, run_state_cell_search]
  · intro gap1 gap2 c1 ht hg1 hg2 h
    rw [run_cons] at h
    have h1 : step (action.search_check t) c
        = some (c.resume t c.obj.start_cell_search_check caller_pc.search_unlocked) := by
      simp [step, ht]
    rw [h1] at h
    simp only [Option.some_bind, run_append, Option.bind_eq_some] at h
    obtain ⟨ca, hca, h⟩ := h
    obtain ⟨a1, a2, a3, a4⟩ := run_loop_settled gap1 _ ca hg1 hca (by simp [hs]) (by simp [hn])
    rw [run_cons] at h
    have hta : ca.callers t = caller_pc.search_unlocked := by
      rw [a3]
      simp [resume_callers, check_fst, hs, hn]
    have h2 : step (action.search_start t true) ca
        = some (ca.resume t (ca.obj.start_cell_search_start true) caller_pc.search_relock) := by
      simp [step, hta]
    rw [h2] at h
    simp only [Option.some_bind, run_append, Option.bind_eq_some] at h
    obtain ⟨cb, hcb, h⟩ := h
    obtain ⟨b1, b2, b3, b4⟩ := run_loop_settled gap2 _ cb hg2 hcb (by simp [a1]) (by simp [a2])
    have htb : cb.callers t = caller_pc.search_relock := by
      rw [b3]
      simp [resume_callers, start_fst]
    have h3 : run [action.search_commit t] cb
        = some ({ cb with obj := cb.obj.start_cell_search_commit.2 }.leave t
            (ret.bool cb.obj.start_cell_search_commit.1)) := by
      simp [run, step, htb]
    rw [h3] at h
    cases h
    refine ⟨?_, ?_, ?_, ?_⟩
    · simp [b4, a4, resume_rets, start_fst, check_fst, hs, hn, start_cell_search_commit]
    · simp [start_cell_search_commit]
    · simp [start_cell_search_commit, b1]
    · simp [start_cell_search_commit, get_state]

/-- C2, at the idle baseline, with one full iteration of the control loop
taken while `searcher.start` runs. -/
theorem C2_start_cell_search_success_witness :
    (sync_sa.fresh.start_cell_search true).1 = true ∧
    ∃ c1, run [action.search_check 3, action.thread_test, action.thread_commit,
          action.search_start 3 true, action.thread_dispatch true, action.search_commit 3]
        (config.start { sync_sa.fresh with running := true }) = some c1 ∧
      c1.rets = [(3, ret.bool true)] ∧
      c1.obj.next_state = STATE_CELL_SEARCH ∧
      c1.obj.state = STATE_IDLE :=
  ⟨(C2_start_cell_search_success (config.start sync_sa.fresh) 0 false rfl rfl).1.1,
   _, rfl, rfl,
   ((C2_start_cell_search_success (config.start { sync_sa.fresh with running := true }) 3 false
      rfl rfl).2 [action.thread_test, action.thread_commit] [action.thread_dispatch true]
      _ rfl (by decide) (by decide) rfl).2.1,
   rfl⟩

/-! ### `go_idle` -/

theorem is_go_idle_cases (t : Nat) (a : action) (h : a.is_go_idle t = true) :
    a = action.idle_enter t ∨ a = action.idle_wake t ∨ a = action.idle_spurious t := by
  cases a <;> simp [action.is_go_idle] at h <;> simp [h]

/-- One evaluation of `go_idle`'s loop condition by caller `t`: with
`state = STATE_IDLE` it calls `wait_all` and returns true, otherwise it
requests `STATE_IDLE` and waits. -/
theorem resume_go_idle_pass (c : config) (t : Nat) :
    (c.obj.state = STATE_IDLE ∧
      (c.resume t c.obj.go_idle_pass (caller_pc.idle_wait false)).obj.state = STATE_IDLE ∧
      (c.resume t c.obj.go_idle_pass (caller_pc.idle_wait false)).callers t
        = caller_pc.outside ∧
      (c.resume t c.obj.go_idle_pass (caller_pc.idle_wait false)).rets
        = c.rets ++ [(t, ret.bool true)] ∧
      (c.resume t c.obj.go_idle_pass (caller_pc.idle_wait false)).obj.trace
        = c.obj.trace ++ [event.wait_all] ∧
      (c.resume t c.obj.go_idle_pass (caller_pc.idle_wait false)).obj.next_state
        = c.obj.next_state) ∨
    (c.obj.state ≠ STATE_IDLE ∧
      (c.resume t c.obj.go_idle_pass (caller_pc.idle_wait false)).obj.state = c.obj.state ∧
      (c.resume t c.obj.go_idle_pass (caller_pc.idle_wait false)).callers t
        = caller_pc.idle_wait false ∧
      (c.resume t c.obj.go_idle_pass (caller_pc.idle_wait false)).rets = c.rets ∧
      (c.resume t c.obj.go_idle_pass (caller_pc.idle_wait false)).obj.trace
        = c.obj.trace ++ [event.cvar_wait] ∧
      (c.resume t c.obj.go_idle_pass (caller_pc.idle_wait false)).obj.next_state
        = STATE_IDLE) := by
  by_cases hs : c.obj.state = STATE_IDLE
  · left
    simp [hs, resume_rets, resume_callers, go_idle_pass_fst, go_idle_pass_trace,
      go_idle_pass_next_state]
  · right
    simp [hs, resume_rets, resume_callers, go_idle_pass_fst, go_idle_pass_trace,
      go_idle_pass_next_state]

/-- A turn of caller `t` inside `go_idle`, taken in any configuration:
either `state` is `STATE_IDLE`, `wait_all` is called and the caller returns
true, or `state` is not `STATE_IDLE`, `STATE_IDLE` is requested and the
caller waits. -/
theorem go_idle_turn (c : config) (t : Nat) (a : action) (c1 : config)
    (ha : a.is_go_idle t = true) (h : step a c = some c1) :
    (c.obj.state = STATE_IDLE ∧ c1.obj.state = STATE_IDLE ∧
      c1.callers t = caller_pc.outside ∧
      c1.rets = c.rets ++ [(t, ret.bool true)] ∧
      c1.obj.trace = c.obj.trace ++ [event.wait_all] ∧
      c1.obj.next_state = c.obj.next_state) ∨
    (c.obj.state ≠ STATE_IDLE ∧ c1.obj.state = c.obj.state ∧
      c1.callers t = caller_pc.idle_wait false ∧
      c1.rets = c.rets ∧
      c1.obj.trace = c.obj.trace ++ [event.cvar_wait] ∧
      c1.obj.next_state = STATE_IDLE) := by
  rcases is_go_idle_cases t a ha with rfl | rfl | rfl <;>
    simp only [step] at h <;> split at h <;> cases h <;> exact resume_go_idle_pass c t

/-- What `go_idle` does guarantee.  The turn in which it returns, after any
schedule from any starting pair, finds `state = STATE_IDLE`, has `wait_all`
as its last call and returns true.  And `go_idle` does return: with the
control loop running, the caller entering, the loop reaching its next
locked section and the notified caller waking up lead to the return of
true. -/
theorem go_idle_returns (c : config) (t : Nat) :
    (∀ a c1, a.is_go_idle t = true → step a c = some c1 →
      (c.obj.state = STATE_IDLE ∧ c1.obj.state = STATE_IDLE ∧
        c1.callers t = caller_pc.outside ∧
        c1.rets = c.rets ++ [(t, ret.bool true)] ∧
        c1.obj.trace = c.obj.trace ++ [event.wait_all] ∧
        c1.obj.next_state = c.obj.next_state) ∨
      (c.obj.state ≠ STATE_IDLE ∧ c1.obj.state = c.obj.state ∧
        c1.callers t = caller_pc.idle_wait false ∧
        c1.rets = c.rets ∧
        c1.obj.trace = c.obj.trace ++ [event.cvar_wait] ∧
        c1.obj.next_state = STATE_IDLE)) ∧
    (∀ sched a c1, a.is_go_idle t = true → run (sched ++ [a]) c = some c1 →
      c1.callers t = caller_pc.outside →
      c1.obj.state = STATE_IDLE ∧
      c1.rets.getLast? = some (t, ret.bool true) ∧
      c1.obj.trace.getLast? = some event.wait_all) ∧
    (c.callers t = caller_pc.outside → c.obj.running = true → c.loop ≠ loop_pc.finished →
      ∀ run_ok, ∃ c1, run (c.go_idle_schedule t run_ok) c = some c1 ∧
        c1.callers t = caller_pc.outside ∧
        c1.rets = c.rets ++ [(t, ret.bool true)] ∧
        c1.obj.state = STATE_IDLE ∧
        c1.obj.trace.getLast? = some event.wait_all) := by
  refine ⟨fun a c1 ha h => go_idle_turn c t a c1 ha h, ?_, ?_⟩
  · intro sched a c1 ha h hout
    simp only [run_append, Option.bind_eq_some] at h
    obtain ⟨c2, _, h2⟩ := h
    have h3 : step a c2 = some c1 := by
      rw [run_cons] at h2
      cases hst : step a c2 with
      | none => rw [hst] at h2; cases h2
      | some c3 =>
        rw [hst] at h2
        exact h2
    rcases go_idle_turn c2 t a c1 ha h3 with h4 | h4
    · exact ⟨h4.2.1, by simp [h4.2.2.2.1], by simp [h4.2.2.2.2.1]⟩
    · rw [h4.2.2.1] at hout
      cases hout
  · intro ht hr hl run_ok
    by_cases hs : c.obj.state = STATE_IDLE
    · simp [config.go_idle_schedule, hs, run, step, ht, resume_rets, resume_callers,
        go_idle_pass_fst, go_idle_pass_trace]
    · have hne : ¬ (STATE_IDLE = c.obj.state) := fun e => hs e.symm
      cases hc : c.loop with
      | finished => exact absurd hc hl
      | head =>
        simp [config.go_idle_schedule, hs, hne, run, step, ht, hc, hr, resume_rets,
          resume_callers, go_idle_pass_fst, go_idle_pass_trace, go_idle_pass_next_state,
          loop_pc.to_commit, loop_test, loop_commit, notify, commit_trace]
      | body =>
        simp [config.go_idle_schedule, hs, hne, run, step, ht, hc, hr, resume_rets,
          resume_callers, go_idle_pass_fst, go_idle_pass_trace, go_idle_pass_next_state,
          loop_pc.to_commit, loop_test, loop_commit, notify, commit_trace]
      | dispatch cs =>
        simp [config.go_idle_schedule, hs, hne, run, step, ht, hc, hr, resume_rets,
          resume_callers, go_idle_pass_fst, go_idle_pass_trace, go_idle_pass_next_state,
          loop_pc.to_commit, loop_test, loop_commit, notify, commit_trace,
          dispatch_next_state]

/-- On a concrete configuration: `go_idle` is called in the middle of an
iteration in `STATE_CELL_SEARCH` whose `searcher.run()` succeeds. -/
theorem go_idle_returns_example :
    ∃ c1, run [action.idle_enter 7, action.thread_dispatch true, action.thread_test,
          action.thread_commit, action.idle_wake 7] config.searching = some c1 ∧
      c1.callers 7 = caller_pc.outside ∧
      c1.rets = [] ++ [(7, ret.bool true)] ∧
      c1.obj.state = STATE_IDLE ∧
      c1.obj.trace.getLast? = some event.wait_all :=
  (go_idle_returns config.searching 7).2.2 rfl rfl (by decide) true

/-- A turn of the control loop, or of a caller inside `go_idle`, does not
replace a requested `STATE_IDLE`. -/
theorem step_keeps_idle_request (t : Nat) (a : action) (c c1 : config)
    (ha : a.is_loop = true ∨ a.is_go_idle t = true) (h : step a c = some c1)
    (hn : c.obj.next_state = STATE_IDLE) : c1.obj.next_state = STATE_IDLE := by
  rcases ha with ha | ha
  · cases a <;> simp [action.is_loop] at ha <;> simp only [step] at h <;> split at h <;> cases h
    · simp [hn]
    · simp [hn]
    · rename_i run_ok _ cs _
      by_cases hf : cs = STATE_CELL_SEARCH ∧ run_ok = false <;> simp [dispatch_next_state, hf, hn]
  · rcases is_go_idle_cases t a ha with rfl | rfl | rfl <;>
      simp only [step] at h <;> split at h <;> cases h <;>
      rcases resume_go_idle_pass c t with h1 | h1
    all_goals first
      | exact h1.2.2.2.2.2.trans hn
      | exact h1.2.2.2.2.2

theorem run_keeps_idle_request (t : Nat) (sched : List action) (c c1 : config)
    (hsched : ∀ a ∈ sched, a.is_loop = true ∨ a.is_go_idle t = true)
    (h : run sched c = some c1) (hn : c.obj.next_state = STATE_IDLE) :
    c1.obj.next_state = STATE_IDLE := by
  induction sched generalizing c with
  | nil =>
    cases h
    exact hn
  | cons a rest ih =>
    rw [run_cons] at h
    cases hs : step a c with
    | none => rw [hs] at h; cases h
    | some c2 =>
      rw [hs] at h
      exact ih c2 (fun b hb => hsched b (List.mem_cons_of_mem _ hb)) h
        (step_keeps_idle_request t a c c2 (hsched a (List.mem_cons_self _ _)) hs hn)

/-- A turn of the control loop, or of a caller inside `go_idle`, keeps the
register on its way to `STATE_IDLE`: `state` is not yet `STATE_IDLE`, or
`STATE_IDLE` is what is requested. -/
theorem step_keeps_settling (t : Nat) (a : action) (c c1 : config)
    (ha : a.is_loop = true ∨ a.is_go_idle t = true) (h : step a c = some c1)
    (hj : c.obj.state ≠ STATE_IDLE ∨ c.obj.next_state = STATE_IDLE) :
    c1.obj.state ≠ STATE_IDLE ∨ c1.obj.next_state = STATE_IDLE := by
  rcases ha with ha | ha
  · cases a <;> simp [action.is_loop] at ha <;> simp only [step] at h <;> split at h <;> cases h
    · simpa using hj
    · by_cases hn : c.obj.next_state = STATE_IDLE
      · right; simpa using hn
      · left; simpa using hn
    · rename_i run_ok _ cs _
      rcases hj with hj | hj
      · left; simpa using hj
      · right
        by_cases hf : cs = STATE_CELL_SEARCH ∧ run_ok = false <;>
          simp [dispatch_next_state, hf, hj]
  · rcases go_idle_turn c t a c1 ha h with h1 | h1
    · rcases hj with hj | hj
      · exact absurd h1.1 hj
      · exact Or.inr (h1.2.2.2.2.2.trans hj)
    · exact Or.inr h1.2.2.2.2.2

theorem run_keeps_settling (t : Nat) (sched : List action) (c c1 : config)
    (hsched : ∀ a ∈ sched, a.is_loop = true ∨ a.is_go_idle t = true)
    (h : run sched c = some c1)
    (hj : c.obj.state ≠ STATE_IDLE ∨ c.obj.next_state = STATE_IDLE) :
    c1.obj.state ≠ STATE_IDLE ∨ c1.obj.next_state = STATE_IDLE := by
  induction sched generalizing c with
  | nil =>
    cases h
    exact hj
  | cons a rest ih =>
    rw [run_cons] at h
    cases hs : step a c with
    | none => rw [hs] at h; cases h
    | some c2 =>
      rw [hs] at h
      exact ih c2 (fun b hb => hsched b (List.mem_cons_of_mem _ hb)) h
        (step_keeps_settling t a c c2 (hsched a (List.mem_cons_self _ _)) hs hj)

/-- Where `go_idle` does what is asked of it.  From every starting pair
other than `state = STATE_IDLE` with a request pending, under every
interleaving of turns of the control loop with the caller's turns inside
`go_idle`: when `go_idle` returns, `state` and `next_state` are both
`STATE_IDLE`, and they stay so under the turns the control loop takes
afterwards. -/
theorem go_idle_settles (c : config) (t : Nat) (before : List action) (a : action)
    (after : List action) (c1 c2 : config)
    (hstart : c.obj.state ≠ STATE_IDLE ∨ c.obj.next_state = STATE_IDLE)
    (hbefore : ∀ b ∈ before, b.is_loop = true ∨ b.is_go_idle t = true)
    (ha : a.is_go_idle t = true)
    (hafter : ∀ b ∈ after, b.is_loop = true)
    (h1 : run (before ++ [a]) c = some c1)
    (hret : c1.callers t = caller_pc.outside)
    (h2 : run after c1 = some c2) :
    c1.obj.state = STATE_IDLE ∧ c1.obj.next_state = STATE_IDLE ∧
    c1.rets.getLast? = some (t, ret.bool true) ∧
    c2.obj.state = STATE_IDLE ∧ c2.obj.next_state = STATE_IDLE ∧
    c2.obj.get_state = STATE_IDLE := by
  have hall : ∀ b ∈ before ++ [a], b.is_loop = true ∨ b.is_go_idle t = true := by
    intro b hb
    rcases List.mem_append.1 hb with hb | hb
    · exact hbefore b hb
    · simp only [List.mem_singleton] at hb
      subst hb
      exact Or.inr ha
  have hj := run_keeps_settling t _ c c1 hall h1 hstart
  obtain ⟨r1, r2, _⟩ := (go_idle_returns c t).2.1 before a c1 ha h1 hret
  have hn : c1.obj.next_state = STATE_IDLE := by
    rcases hj with hj | hj
    · exact absurd r1 hj
    · exact hj
  obtain ⟨s1, s2, _, _⟩ := run_loop_settled after c1 c2 hafter h2 r1 hn
  exact ⟨r1, hn, r2, s1, s2, s1⟩

/-- On a concrete schedule: `go_idle` entered in the middle of an iteration
in `STATE_CELL_SEARCH`, the loop running one more iteration after the
return. -/
theorem go_idle_settles_example :
    ∃ c1 c2, run ([action.idle_enter 7, action.thread_dispatch true, action.thread_test,
          action.thread_commit] ++ [action.idle_wake 7]) config.searching = some c1 ∧
      run [action.thread_dispatch true, action.thread_test, action.thread_commit] c1
        = some c2 ∧
      c1.rets = [(7, ret.bool true)] ∧
      c2.obj.get_state = STATE_IDLE :=
  ⟨_, _, rfl, rfl, rfl,
    (go_idle_settles config.searching 7
      [action.idle_enter 7, action.thread_dispatch true, action.thread_test,
        action.thread_commit] (action.idle_wake 7)
      [action.thread_dispatch true, action.thread_test, action.thread_commit] _ _
      (Or.inl (by decide)) (by decide) rfl (by decide) rfl rfl rfl).2.2.2.2.2⟩

/-- C3: "after `go_idle` returns the current state is idle, for every
starting pair" fails on the code at the pair `state = STATE_IDLE`,
`next_state = STATE_CELL_SEARCH`.  From the idle baseline caller 1 requests
a search, which succeeds; before the control loop has committed it, caller
0 calls `go_idle`, which finds `state = STATE_IDLE`, calls `wait_all` and
returns true at once, the request still pending; the next locked section of
the control loop commits the search, and `get_state`, called by caller 0
after its `go_idle` has returned true, returns `STATE_CELL_SEARCH`. -/
theorem C3_go_idle_then_search :
    ∃ c1 c2 c3,
      run [action.search_check 1, action.search_start 1 true, action.search_commit 1]
        (config.start { sync_sa.fresh with running := true }) = some c1 ∧
      c1.obj.state = STATE_IDLE ∧ c1.obj.next_state = STATE_CELL_SEARCH ∧
      run [action.idle_enter 0] c1 = some c2 ∧
      c2.callers 0 = caller_pc.outside ∧
      c2.rets = [(1, ret.bool true), (0, ret.bool true)] ∧
      c2.obj.trace = [event.searcher_start, event.wait_all] ∧
      c2.obj.state = STATE_IDLE ∧
      run [action.thread_test, action.thread_commit, action.read_state 0] c2 = some c3 ∧
      c3.rets = [(1, ret.bool true), (0, ret.bool true), (0, ret.state STATE_CELL_SEARCH)] ∧
      c3.obj.get_state = STATE_CELL_SEARCH ∧
      c3.obj.get_state ≠ STATE_IDLE :=
  ⟨_, _, _, rfl, rfl, rfl, rfl, rfl, rfl, rfl, rfl, rfl, rfl, rfl, by decide⟩

/-- C6: "`go_idle` always sets `next_state` to idle" fails on the code at
`state = STATE_IDLE` with a pending `next_state = STATE_CELL_SEARCH`: the
assignment sits inside `while (state != STATE_IDLE)`, the loop body is not
entered, `go_idle` returns true and `next_state` is still
`STATE_CELL_SEARCH`, with nothing written to it.  With `state`
different from `STATE_IDLE` the same pending request is overwritten. -/
theorem C6_go_idle_keeps_pending_request :
    config.pending_search.obj.state = STATE_IDLE ∧
    config.pending_search.obj.next_state = STATE_CELL_SEARCH ∧
    config.pending_search.obj.go_idle_pass.1 = some true ∧
    config.pending_search.obj.go_idle_pass.2.next_state = STATE_CELL_SEARCH ∧
    config.pending_search.obj.go_idle_pass.2.written = [] ∧
    config.pending_search.obj.go_idle_pass.2.trace = [event.wait_all] ∧
    (∃ c1, step (action.idle_enter 0) config.pending_search = some c1 ∧
      c1.callers 0 = caller_pc.outside ∧
      c1.rets = [(0, ret.bool true)] ∧
      c1.obj.next_state = STATE_CELL_SEARCH ∧
      c1.obj.next_state ≠ STATE_IDLE) ∧
    (({ config.pending_search.obj with state := STATE_CELL_SELECT }).go_idle_pass.2.next_state
      = STATE_IDLE) :=
  ⟨rfl, rfl, rfl, rfl, rfl, rfl, ⟨_, rfl, rfl, rfl, rfl, by decide⟩, rfl⟩

end interleavings

end srsue.nr
